import Mathlib

/-!
A verification development for the WareBalancerAI analytical pipeline
(`src/utils.py`).  The pandas DataFrames are shallowly embedded as lists of
records; numeric cells are rational numbers; Python `int()` and `round(·, 2)`
are modelled exactly (truncation toward zero, round-half-to-even).  Each
definition below is a direct translation of the correspondingly named Python
function.
-/

/-- A date cell: either the raw string as loaded from the file, or the
timestamp produced by `pd.to_datetime`.  Only the change of representation is
observable to the properties below, so the parsed form keeps the string. -/
inductive DateVal where
  | raw (s : String)
  | parsed (s : String)
deriving DecidableEq

/-- `pd.to_datetime` on one cell: parses a raw string, passes a timestamp
through unchanged (idempotent). -/
def to_datetime : DateVal → DateVal
  | .raw s => .parsed s
  | .parsed s => .parsed s

/-- One row of the orders table. -/
structure ORow where
  oid : String
  odate : DateVal
  origin : String
  category : String
  value : ℚ
deriving DecidableEq

/-- One row of the warehouse inventory table. -/
structure WRow where
  wid : String
  location : String
  category : String
  stock : ℚ
  reorder : ℚ
  cost : ℚ
deriving DecidableEq

/-- One row of the demand table produced by `calculate_demand`. -/
structure DRow where
  origin : String
  category : String
  monthly : ℚ
deriving DecidableEq

/-- One row of the merged pressure table produced by `compute_spi`:
the warehouse columns, the `Origin` column brought in by the merge
(`none` on an unmatched row), the filled `Monthly_Demand` and the `SPI`. -/
structure PRow where
  wid : String
  location : String
  category : String
  stock : ℚ
  reorder : ℚ
  cost : ℚ
  morigin : Option String
  monthly : ℚ
  spi : ℚ
deriving DecidableEq

/-- Python `int(x)`: truncation toward zero (`Int.div` is T-division). -/
def pyInt (q : ℚ) : ℤ :=
  Int.tdiv q.num q.den

/-- Python `round(x)` to the nearest integer, ties to the even integer
(banker's rounding). -/
def pyRoundInt (q : ℚ) : ℤ :=
  let f := ⌊q⌋
  if q - f < 1/2 then f
  else if 1/2 < q - f then f + 1
  else if f % 2 = 0 then f else f + 1

/-- Python `round(x, 2)`: round to two decimal places, ties to even. -/
def pyRound2 (q : ℚ) : ℚ :=
  (pyRoundInt (q * 100) : ℚ) / 100

/-- Lexicographic order on the (Origin, Product_Category) key pairs, as used
by `groupby(..., sort=True)`. -/
def pairLe (a b : String × String) : Prop :=
  a.1 < b.1 ∨ (a.1 = b.1 ∧ ¬ b.2 < a.2)

instance : DecidableRel pairLe := fun a b =>
  inferInstanceAs (Decidable (a.1 < b.1 ∨ (a.1 = b.1 ∧ ¬ b.2 < a.2)))

/-- The grouping key of an order row. -/
def orderKey (r : ORow) : String × String :=
  (r.origin, r.category)

/-- `calculate_demand(orders)`.  The Python body first executes
`orders['Order_Date'] = pd.to_datetime(orders['Order_Date'])`, which writes
into the caller's DataFrame; the mutated post-state of the argument is
returned as the first component.  The second component is the result of
`orders.groupby(['Origin', 'Product_Category']).size()`: one row per distinct
key pair, keys in sorted order (`sort=True` is the groupby default; the
dedup-occurrence order is irrelevant because of the sort), with
`Monthly_Demand` the number of order rows carrying that key. -/
def calculate_demand (orders : List ORow) : List ORow × List DRow :=
  let ordersMut := orders.map (fun r => { r with odate := to_datetime r.odate })
  let keys := List.insertionSort pairLe ((ordersMut.map orderKey).dedup)
  (ordersMut,
   keys.map (fun k =>
     { origin := k.1, category := k.2,
       monthly := ((ordersMut.filter (fun r => decide (orderKey r = k))).length : ℚ) }))

/-- The demand rows matching one warehouse row under the merge keys
`left_on=['Location','Product_Category']`, `right_on=['Origin','Product_Category']`. -/
def matchesFor (demand : List DRow) (w : WRow) : List DRow :=
  demand.filter (fun d => decide (d.origin = w.location ∧ d.category = w.category))

/-- Build one merged row.  `Monthly_Demand` is `fillna(0)`-filled and
`SPI = (Current_Stock_Units - Reorder_Level) - Monthly_Demand`. -/
def mkPressureRow (w : WRow) (od : Option DRow) : PRow :=
  let m : ℚ := match od with
    | none => 0
    | some d => d.monthly
  { wid := w.wid, location := w.location, category := w.category,
    stock := w.stock, reorder := w.reorder, cost := w.cost,
    morigin := od.map DRow.origin, monthly := m,
    spi := w.stock - w.reorder - m }

/-- The merged rows contributed by one warehouse row: a left outer join keeps
the row (with null demand) when nothing matches, else one row per match. -/
def mergeRow (w : WRow) (demand : List DRow) : List PRow :=
  match matchesFor demand w with
  | [] => [mkPressureRow w none]
  | d :: ds => (d :: ds).map (fun x => mkPressureRow w (some x))

/-- `compute_spi(warehouse, demand)`: the `how='left'` merge (driven by the
warehouse rows, in warehouse order) followed by `fillna(0)` on
`Monthly_Demand` and the SPI column computation, both folded into
`mkPressureRow`. -/
def compute_spi (wh : List WRow) (demand : List DRow) : List PRow :=
  match wh with
  | [] => []
  | w :: ws => mergeRow w demand ++ compute_spi ws demand

/-- One transfer recommendation row. -/
structure TransferRec where
  category : String
  fromW : String
  fromL : String
  toW : String
  toL : String
  units : ℤ
  saving : ℚ
  donorSPI : ℚ
  receiverSPI : ℚ
deriving DecidableEq

/-- `same_cat.sort_values('SPI', ascending=False).iloc[0]`.  For a descending
sort pandas (`nargsort`) computes the ascending argsort and reverses it; the
underlying numpy quicksort runs stably (insertion sort) on the small partitions
arising here.  The head of the reversed ascending order is therefore the
LAST row, in original order, attaining the maximal SPI — which is what this
recursion returns (`none` exactly when `same_cat.empty`). -/
def argmaxSPIlast : List PRow → Option PRow
  | [] => none
  | r :: l =>
    match argmaxSPIlast l with
    | none => some r
    | some d => if d.spi < r.spi then some r else some d

/-- Donor selection as the specification words it: the maximal-SPI candidate,
ties broken by the FIRST-encountered row in the surplus set's order.  Stated
only to be compared with `argmaxSPIlast`, the selection the code performs. -/
def firstMaxDonorSpec : List PRow → Option PRow
  | [] => none
  | r :: l =>
    match firstMaxDonorSpec l with
    | none => some r
    | some d => if r.spi < d.spi then some d else some r

/-- The body of the `for` loop of `recommend_transfers` for one shortage row:
`none` when no surplus row shares the category, else the appended record. -/
def mkTransferRec (surplus : List PRow) (row : PRow) : Option TransferRec :=
  let same_cat := surplus.filter (fun s => decide (s.category = row.category))
  match argmaxSPIlast same_cat with
  | none => none
  | some donor =>
    let units := min |row.spi| donor.spi
    let savings := units * (donor.cost - row.cost)
    some { category := row.category,
           fromW := donor.wid, fromL := donor.location,
           toW := row.wid, toL := row.location,
           units := pyInt units,
           saving := pyRound2 savings,
           donorSPI := pyRound2 donor.spi,
           receiverSPI := pyRound2 row.spi }

/-- `recommend_transfers(merged)`: iterate over the shortage rows (SPI < 0) in
table order, appending at most one recommendation each, donors drawn from the
surplus rows (SPI > 0).  The donor pool is recomputed identically for every
shortage row; nothing is decremented between iterations. -/
def recommend_transfers (merged : List PRow) : List TransferRec :=
  let surplus := merged.filter (fun r => decide (0 < r.spi))
  (merged.filter (fun r => decide (r.spi < 0))).filterMap (mkTransferRec surplus)

/-- The metrics dictionary of `calculate_metrics`. -/
structure Metrics where
  total_warehouses : ℕ
  total_skus : ℕ
  shortage_percentage : ℚ
  average_spi : ℚ
  potential_cost_saving : ℚ
  top_risk_categories : List (String × ℚ)
deriving DecidableEq

/-- `merged.groupby('Product_Category')['SPI'].min().sort_values().head(3)`:
one (category, minimal SPI) pair per distinct category (groupby sorts the
category keys), stably sorted ascending by the minimum, first three kept.
The minimum folds over the group's own values; the `[]` arm is unreachable
because every listed category is the category of at least one row. -/
def topRiskCategories (merged : List PRow) : List (String × ℚ) :=
  let cats := List.insertionSort (fun a b : String => ¬ b < a)
    ((merged.map PRow.category).dedup)
  let pairs := cats.map (fun c =>
    (c, match (merged.filter (fun r => decide (r.category = c))).map PRow.spi with
        | [] => 0
        | x :: xs => xs.foldl min x))
  (List.insertionSort (fun a b : String × ℚ => a.2 ≤ b.2) pairs).take 3

/-- `calculate_metrics(merged)`.  On an empty table the expression
`(total_shortages / total_skus) * 100` raises `ZeroDivisionError` while the
result dictionary is being built (`0 / 0` on Python ints), modelled as `none`;
every other field evaluates without raising. -/
def calculate_metrics (merged : List PRow) : Option Metrics :=
  let total_shortages := (merged.filter (fun r => decide (r.spi < 0))).length
  let total_warehouses := (merged.map PRow.wid).dedup.length
  let total_skus := merged.length
  if total_skus = 0 then none
  else
    let avg_spi := ((merged.map PRow.spi).foldr (· + ·) 0) / (total_skus : ℚ)
    let recommendations := recommend_transfers merged
    let total_savings :=
      if recommendations.isEmpty then 0
      else (recommendations.map TransferRec.saving).foldr (· + ·) 0
    some { total_warehouses := total_warehouses,
           total_skus := total_skus,
           shortage_percentage := pyRound2 (((total_shortages : ℚ) / (total_skus : ℚ)) * 100),
           average_spi := pyRound2 avg_spi,
           potential_cost_saving := pyRound2 total_savings,
           top_risk_categories := topRiskCategories merged }

/-- `orders_sim.sample(n=n, replace=True)`: `n` independent draws; the random
source is abstracted as an index oracle `idx` (reduced modulo the table
length). -/
def sampleWithReplacement (l : List ORow) (n : ℕ) (idx : ℕ → ℕ) : List ORow :=
  (List.range n).filterMap (fun i => l.get? (idx i % l.length))

/-- `orders_sim.sample(n=n)` (without replacement): keeps the rows indexed by
the first `n` entries of the random permutation `perm` of the row indices;
pandas raises `ValueError` when `n` exceeds the population, modelled as
`none`. -/
def sampleWithoutReplacement (l : List ORow) (n : ℕ) (perm : List ℕ) :
    Option (List ORow) :=
  if n ≤ l.length then some ((perm.take n).filterMap l.get?) else none

/-- `simulate_demand_change(orders, pct)`.  `change_amount` is
`int(num_orders * abs(pct))` — truncation, not rounding.  A positive `pct`
appends `min(change_amount, num_orders)` rows sampled with replacement; a
negative one keeps `max(num_orders - change_amount, 1)` rows sampled without
replacement (natural subtraction agrees with Python's `max` here); `pct = 0`
returns the untouched copy.  The randomness oracles are passed explicitly. -/
def simulate_demand_change (orders : List ORow) (pct : ℚ) (idx : ℕ → ℕ)
    (perm : List ℕ) : Option (List ORow) :=
  if pct ≠ 0 then
    let num_orders := orders.length
    let change_amount := (pyInt ((num_orders : ℚ) * |pct|)).toNat
    if 0 < pct then
      some (orders ++ sampleWithReplacement orders (min change_amount num_orders) idx)
    else
      sampleWithoutReplacement orders (max (num_orders - change_amount) 1) perm
  else
    some orders

/-- `simulate_cost_change(warehouse, pct)`: scales `Storage_Cost_per_Unit` by
`(1 + pct)` on a copy when `pct ≠ 0`, else returns the untouched copy. -/
def simulate_cost_change (wh : List WRow) (pct : ℚ) : List WRow :=
  if pct ≠ 0 then wh.map (fun r => { r with cost := r.cost * (1 + pct) })
  else wh

/-- A raw input table as the validator sees it: its column-name list and, for
each numeric column name, the list of values stored in that column. -/
structure RawTable where
  cols : List String
  colVals : String → List ℚ

def requiredWarehouseCols : List String :=
  ["Warehouse_ID", "Location", "Product_Category",
   "Current_Stock_Units", "Reorder_Level", "Storage_Cost_per_Unit"]

def requiredOrdersCols : List String :=
  ["Order_ID", "Order_Date", "Origin", "Product_Category", "Order_Value_INR"]

/-- A string rendered the way Python `str` renders it inside a list. -/
def pyQuote (s : String) : String := "\x27" ++ s ++ "\x27"

/-- Python `str` of a list of strings, as interpolated by the f-strings of
`validate_data`. -/
def pyStrList (l : List String) : String :=
  "[" ++ String.intercalate ", " (l.map pyQuote) ++ "]"

/-- The first `errors.append` of `validate_data`: fires when any required
warehouse column is absent, interpolating the missing-column list. -/
def missingWarehouseMsgs (wh : RawTable) : List String :=
  let missW := requiredWarehouseCols.filter (fun c => decide (c ∉ wh.cols))
  if missW = [] then [] else ["Missing warehouse columns: " ++ pyStrList missW]

/-- The second `errors.append` of `validate_data`: missing orders columns. -/
def missingOrdersMsgs (od : RawTable) : List String :=
  let missO := requiredOrdersCols.filter (fun c => decide (c ∉ od.cols))
  if missO = [] then [] else ["Missing orders columns: " ++ pyStrList missO]

/-- The third `errors.append` of `validate_data`: a negative
`Current_Stock_Units` value, checked only when the column is present. -/
def negStockMsgs (wh : RawTable) : List String :=
  if "Current_Stock_Units" ∈ wh.cols ∧
      (wh.colVals "Current_Stock_Units").any (fun v => decide (v < 0)) then
    ["Negative stock units found in warehouse data"]
  else []

/-- The fourth `errors.append` of `validate_data`: a negative
`Storage_Cost_per_Unit` value, checked only when the column is present. -/
def negCostMsgs (wh : RawTable) : List String :=
  if "Storage_Cost_per_Unit" ∈ wh.cols ∧
      (wh.colVals "Storage_Cost_per_Unit").any (fun v => decide (v < 0)) then
    ["Negative storage costs found in warehouse data"]
  else []

/-- `validate_data(warehouse, orders)`: four independent checks, each
appending at most one message to `errors` in source order; the boolean is
`len(errors) == 0`.  Every branch is total: the function never raises. -/
def validate_data (wh od : RawTable) : Bool × List String :=
  let errors := missingWarehouseMsgs wh ++ missingOrdersMsgs od ++
    negStockMsgs wh ++ negCostMsgs wh
  (errors.isEmpty, errors)

/-- The analytical pipeline as the dashboard drives it: aggregate demand,
compute the pressure table, then derive both the metrics dictionary and the
recommendation sequence from it. -/
def fullPipeline (wh : List WRow) (orders : List ORow) :
    Option Metrics × List TransferRec :=
  let merged := compute_spi wh (calculate_demand orders).2
  (calculate_metrics merged, recommend_transfers merged)

/-! ### Helper lemmas -/

theorem mem_mergeRow {w : WRow} {demand : List DRow} {p : PRow}
    (hp : p ∈ mergeRow w demand) :
    (matchesFor demand w = [] ∧ p = mkPressureRow w none) ∨
      ∃ d ∈ matchesFor demand w, p = mkPressureRow w (some d) := by
  unfold mergeRow at hp
  cases hm : matchesFor demand w with
  | nil => rw [hm] at hp; exact Or.inl ⟨rfl, (List.mem_singleton.mp hp)⟩
  | cons d ds =>
    rw [hm] at hp
    obtain ⟨x, hx, hxe⟩ := List.mem_map.mp hp
    exact Or.inr ⟨x, hm ▸ hx, hxe.symm⟩

theorem mem_compute_spi {wh : List WRow} {demand : List DRow} {p : PRow}
    (hp : p ∈ compute_spi wh demand) : ∃ w ∈ wh, p ∈ mergeRow w demand := by
  induction wh with
  | nil => simp [compute_spi] at hp
  | cons w ws ih =>
    rw [compute_spi] at hp
    rcases List.mem_append.mp hp with h | h
    · exact ⟨w, List.mem_cons_self w ws, h⟩
    · obtain ⟨w', hw', hp'⟩ := ih h
      exact ⟨w', List.mem_cons_of_mem w hw', hp'⟩

theorem pyInt_eq_floor {q : ℚ} (h : 0 ≤ q) : pyInt q = ⌊q⌋ := by
  rw [pyInt, Rat.floor_def]
  exact Int.tdiv_eq_ediv (Rat.num_nonneg.mpr h) (Int.ofNat_nonneg _)

theorem pyInt_nonneg {q : ℚ} (h : 0 ≤ q) : 0 ≤ pyInt q := by
  rw [pyInt_eq_floor h]; exact Int.floor_nonneg.mpr h

theorem pyInt_le_self {q : ℚ} (h : 0 ≤ q) : (pyInt q : ℚ) ≤ q := by
  rw [pyInt_eq_floor h]; exact Int.floor_le q

/-! ### C1: the SPI formula -/

/-- C1: every row of the `compute_spi` output carries
`SPI = (Current_Stock_Units - Reorder_Level) - Monthly_Demand`, where
`Monthly_Demand` is the joined demand value for the row's
(Location = Origin, Product_Category) key, or 0 when no demand row matches;
no rounding is applied. -/
theorem compute_spi_formula (wh : List WRow) (demand : List DRow) (p : PRow)
    (hp : p ∈ compute_spi wh demand) :
    p.spi = p.stock - p.reorder - p.monthly ∧
      ((∃ d ∈ demand, d.origin = p.location ∧ d.category = p.category ∧
          p.monthly = d.monthly) ∨
        (p.monthly = 0 ∧
          ∀ d ∈ demand, ¬(d.origin = p.location ∧ d.category = p.category))) := by
  obtain ⟨w, _hw, hpm⟩ := mem_compute_spi hp
  rcases mem_mergeRow hpm with ⟨hnil, rfl⟩ | ⟨d, hd, rfl⟩
  · refine ⟨by simp [mkPressureRow], Or.inr ⟨by simp [mkPressureRow], ?_⟩⟩
    intro d hdm hcond
    have hmem : d ∈ matchesFor demand w := by
      refine List.mem_filter.mpr ⟨hdm, decide_eq_true ?_⟩
      simpa [mkPressureRow] using hcond
    rw [hnil] at hmem
    exact absurd hmem (List.not_mem_nil d)
  · have hdd := List.mem_filter.mp hd
    have hcond := of_decide_eq_true hdd.2
    refine ⟨by simp [mkPressureRow], Or.inl ⟨d, hdd.1, ?_, ?_, ?_⟩⟩
    · simpa [mkPressureRow] using hcond.1
    · simpa [mkPressureRow] using hcond.2
    · simp [mkPressureRow]

def whW : List WRow :=
  [⟨"W1", "Mumbai", "E", 5, 2, 3⟩, ⟨"W2", "Delhi", "E", 10, 1, 7⟩]

def odW : List ORow :=
  [⟨"O1", .raw "2024-01-01", "Mumbai", "E", 1⟩,
   ⟨"O2", .parsed "2024-01-02", "Mumbai", "E", 1⟩]

/-- The first merged row that `compute_spi` produces on `whW` and the demand
aggregated from `odW`. -/
def pW : PRow :=
  mkPressureRow ⟨"W1", "Mumbai", "E", 5, 2, 3⟩ (some ⟨"Mumbai", "E", 2⟩)

/-- Witness for `compute_spi_formula` at a concrete merged row. -/
theorem compute_spi_formula_witness :
    pW.spi = pW.stock - pW.reorder - pW.monthly ∧
      ((∃ d ∈ (calculate_demand odW).2, d.origin = pW.location ∧
          d.category = pW.category ∧ pW.monthly = d.monthly) ∨
        (pW.monthly = 0 ∧
          ∀ d ∈ (calculate_demand odW).2,
            ¬(d.origin = pW.location ∧ d.category = pW.category))) :=
  compute_spi_formula whW (calculate_demand odW).2 pW (List.Mem.head _)

/-! ### C2: left-join cardinality preservation -/

theorem filter_matches_map_le_one (loc cat : String)
    (f : String × String → DRow)
    (hf : ∀ k, (f k).origin = k.1 ∧ (f k).category = k.2) :
    ∀ keys : List (String × String), keys.Nodup →
      ((keys.map f).filter
          (fun d => decide (d.origin = loc ∧ d.category = cat))).length ≤ 1 := by
  intro keys
  induction keys with
  | nil => simp
  | cons k ks ih =>
    intro hnd
    rw [List.map_cons, List.filter_cons]
    by_cases hk : (f k).origin = loc ∧ (f k).category = cat
    · have hkey : k = (loc, cat) := by
        have h1 := (hf k).1
        have h2 := (hf k).2
        exact Prod.ext (by rw [← h1, hk.1]) (by rw [← h2, hk.2])
      have hrest : (ks.map f).filter
          (fun d => decide (d.origin = loc ∧ d.category = cat)) = [] := by
        refine List.filter_eq_nil_iff.mpr ?_
        intro d hdm hpd
        obtain ⟨k', hk', rfl⟩ := List.mem_map.mp hdm
        have hc := of_decide_eq_true hpd
        have : k' = (loc, cat) :=
          Prod.ext (by rw [← (hf k').1, hc.1]) (by rw [← (hf k').2, hc.2])
        exact (List.nodup_cons.mp hnd).1 (hkey ▸ this ▸ hk')
      rw [if_pos (decide_eq_true hk), hrest]
      simp
    · have : decide ((f k).origin = loc ∧ (f k).category = cat) = false :=
        decide_eq_false hk
      simp only [this, if_false, Bool.false_eq_true]
      exact ih (List.nodup_cons.mp hnd).2

theorem matchesFor_calculate_demand_le_one (orders : List ORow) (w : WRow) :
    (matchesFor (calculate_demand orders).2 w).length ≤ 1 := by
  unfold calculate_demand matchesFor
  exact filter_matches_map_le_one w.location w.category _
    (fun k => ⟨rfl, rfl⟩) _
    ((List.perm_insertionSort pairLe _).symm.nodup (List.nodup_dedup _))

theorem mergeRow_length {w : WRow} {demand : List DRow}
    (h : (matchesFor demand w).length ≤ 1) : (mergeRow w demand).length = 1 := by
  unfold mergeRow
  cases hm : matchesFor demand w with
  | nil => rfl
  | cons d ds =>
    rw [hm] at h
    simp only [List.length_cons] at h
    have hds : ds.length = 0 := by omega
    simp [List.length_map, hds]

theorem compute_spi_length_eq {demand : List DRow}
    (h : ∀ w : WRow, (matchesFor demand w).length ≤ 1) :
    ∀ wh : List WRow, (compute_spi wh demand).length = wh.length := by
  intro wh
  induction wh with
  | nil => rfl
  | cons w ws ih =>
    rw [compute_spi, List.length_append, mergeRow_length (h w), ih,
      List.length_cons]
    omega

/-- C2: for a non-empty warehouse table and a demand table produced by
`calculate_demand` (one row per distinct (Origin, Product_Category) key), the
left join of `compute_spi` yields exactly one output row per warehouse row. -/
theorem compute_spi_preserves_length (wh : List WRow) (orders : List ORow)
    (_hne : wh ≠ []) :
    (compute_spi wh (calculate_demand orders).2).length = wh.length :=
  compute_spi_length_eq (matchesFor_calculate_demand_le_one orders) wh

/-- Witness for `compute_spi_preserves_length` on concrete tables. -/
theorem compute_spi_preserves_length_witness :
    whW ≠ [] ∧
      (compute_spi whW (calculate_demand odW).2).length = whW.length :=
  ⟨by decide, compute_spi_preserves_length whW odW (by decide)⟩

/-! ### C3: transfer units are safe -/

theorem argmaxSPIlast_eq_none {l : List PRow} :
    argmaxSPIlast l = none ↔ l = [] := by
  cases l with
  | nil => simp [argmaxSPIlast]
  | cons r t =>
    rw [argmaxSPIlast]
    cases argmaxSPIlast t
    · simp
    · simp
      split <;> simp

theorem argmaxSPIlast_spec :
    ∀ {l : List PRow} {d : PRow}, argmaxSPIlast l = some d →
      d ∈ l ∧ (∀ x ∈ l, x.spi ≤ d.spi) ∧
        ∃ l1 l2, l = l1 ++ d :: l2 ∧ ∀ x ∈ l2, x.spi < d.spi := by
  intro l
  induction l with
  | nil => intro d h; simp [argmaxSPIlast] at h
  | cons r t ih =>
    intro d h
    rw [argmaxSPIlast] at h
    cases ht : argmaxSPIlast t with
    | none =>
      rw [ht] at h
      replace h : some r = some d := h
      have htnil : t = [] := argmaxSPIlast_eq_none.mp ht
      cases h
      subst htnil
      exact ⟨List.mem_singleton_self r, by simp,
        [], [], rfl, by simp⟩
    | some b =>
      rw [ht] at h
      replace h : (if b.spi < r.spi then some r else some b) = some d := h
      obtain ⟨hbmem, hble, t1, t2, hsplit, hlt2⟩ := ih ht
      by_cases hlt : b.spi < r.spi
      · rw [if_pos hlt] at h
        cases h
        refine ⟨List.mem_cons_self _ _, ?_, [], t, rfl, ?_⟩
        · intro x hx
          rcases List.mem_cons.mp hx with rfl | hx
          · exact le_refl _
          · exact le_of_lt (lt_of_le_of_lt (hble x hx) hlt)
        · exact fun x hx => lt_of_le_of_lt (hble x hx) hlt
      · rw [if_neg hlt] at h
        cases h
        refine ⟨List.mem_cons_of_mem r hbmem, ?_, r :: t1, t2, by rw [hsplit]; rfl, hlt2⟩
        intro x hx
        rcases List.mem_cons.mp hx with rfl | hx
        · exact not_lt.mp hlt
        · exact hble x hx

/-- C3: every emitted recommendation's `Units` field is a non-negative
integer equal to `min(|receiver.SPI|, donor.SPI)` truncated toward zero,
where the receiver `r` and donor `d` are THE matched pair of that
recommendation — the rows recorded in its `To_Warehouse`/`To_Location`/
`Receiver_SPI` and `From_Warehouse`/`From_Location`/`Donor_SPI` fields — and
hence `Units` never exceeds that receiver's deficit `|r.SPI|` nor that
donor's surplus `d.SPI`. -/
theorem recommend_transfers_units (merged : List PRow) (rec : TransferRec)
    (hrec : rec ∈ recommend_transfers merged) :
    0 ≤ rec.units ∧
      ∃ r ∈ merged, ∃ d ∈ merged, r.spi < 0 ∧ 0 < d.spi ∧
        d.category = r.category ∧
        rec.toW = r.wid ∧ rec.toL = r.location ∧
        rec.receiverSPI = pyRound2 r.spi ∧
        rec.fromW = d.wid ∧ rec.fromL = d.location ∧
        rec.donorSPI = pyRound2 d.spi ∧
        rec.units = pyInt (min |r.spi| d.spi) ∧
        (rec.units : ℚ) ≤ |r.spi| ∧ (rec.units : ℚ) ≤ d.spi := by
  unfold recommend_transfers at hrec
  obtain ⟨row, hrow, hmk⟩ := List.mem_filterMap.mp hrec
  have hrowm := List.mem_filter.mp hrow
  have hrneg : row.spi < 0 := of_decide_eq_true hrowm.2
  simp only [mkTransferRec] at hmk
  cases hd : argmaxSPIlast
      ((merged.filter fun r => decide (0 < r.spi)).filter
        fun s => decide (s.category = row.category)) with
  | none => rw [hd] at hmk; cases hmk
  | some donor =>
    rw [hd] at hmk
    obtain ⟨hdmem, _, _⟩ := argmaxSPIlast_spec hd
    have h1 := List.mem_filter.mp hdmem
    have hcat : donor.category = row.category := of_decide_eq_true h1.2
    have h2 := List.mem_filter.mp h1.1
    have hdpos : 0 < donor.spi := of_decide_eq_true h2.2
    have hm0 : 0 ≤ min |row.spi| donor.spi :=
      le_min (abs_nonneg _) (le_of_lt hdpos)
    cases hmk
    refine ⟨pyInt_nonneg hm0, row, hrowm.1, donor, h2.1, hrneg, hdpos, hcat,
      rfl, rfl, rfl, rfl, rfl, rfl, rfl, ?_, ?_⟩
    · exact le_trans (pyInt_le_self hm0) (min_le_left _ _)
    · exact le_trans (pyInt_le_self hm0) (min_le_right _ _)

def mergedC3 : List PRow :=
  [⟨"R", "Mumbai", "E", 0, 0, 1, none, 0, -5⟩,
   ⟨"D", "Delhi", "E", 0, 0, 2, none, 0, 8⟩]

/-- The recommendation that `recommend_transfers` emits on `mergedC3`. -/
def recC3 : TransferRec :=
  { category := "E", fromW := "D", fromL := "Delhi",
    toW := "R", toL := "Mumbai",
    units := pyInt (min |(-5 : ℚ)| 8),
    saving := pyRound2 (min |(-5 : ℚ)| 8 * (2 - 1)),
    donorSPI := pyRound2 8, receiverSPI := pyRound2 (-5) }

/-- Witness for `recommend_transfers_units` at a concrete table. -/
theorem recommend_transfers_units_witness :
    0 ≤ recC3.units ∧
      ∃ r ∈ mergedC3, ∃ d ∈ mergedC3, r.spi < 0 ∧ 0 < d.spi ∧
        d.category = r.category ∧
        recC3.toW = r.wid ∧ recC3.toL = r.location ∧
        recC3.receiverSPI = pyRound2 r.spi ∧
        recC3.fromW = d.wid ∧ recC3.fromL = d.location ∧
        recC3.donorSPI = pyRound2 d.spi ∧
        recC3.units = pyInt (min |r.spi| d.spi) ∧
        (recC3.units : ℚ) ≤ |r.spi| ∧ (recC3.units : ℚ) ≤ d.spi :=
  recommend_transfers_units mergedC3 recC3 (List.Mem.head _)

/-! ### C4: donor selection -/

def mergedC4 : List PRow :=
  [⟨"R1", "Chennai", "E", 0, 0, 1, none, 0, -5⟩,
   ⟨"W2", "Mumbai", "E", 0, 0, 2, none, 0, 7⟩,
   ⟨"W3", "Delhi", "E", 0, 0, 2, none, 0, 7⟩]

/-- C4 counterexample: on `mergedC4` the two candidate donors `W2` and `W3`
tie at the maximal SPI 7.  The first-encountered candidate in the surplus
set's order is `W2`, but the code's descending sort places the later tied row
first, so the emitted recommendation names `W3`. -/
theorem recommend_transfers_tie_counterexample :
    (recommend_transfers mergedC4).map TransferRec.fromW = ["W3"] ∧
      (firstMaxDonorSpec ((mergedC4.filter fun r => decide (0 < r.spi)).filter
          fun s => decide (s.category = "E"))).map PRow.wid = some "W2" ∧
      ("W3" : String) ≠ "W2" := by
  refine ⟨?_, ?_, ?_⟩ <;> decide

/-- C4 (amended): for every shortage row whose same-category candidate set is
non-empty, `recommend_transfers` emits a recommendation whose donor attains
the maximal SPI among the candidates, and among tied maxima it is the
LAST-encountered candidate in the surplus set's order (pandas reverses a
stable ascending sort for `ascending=False`); the selection is a pure
function of the input, hence deterministic for a fixed input order. -/
theorem recommend_transfers_donor_choice (merged : List PRow) (row : PRow)
    (hrow : row ∈ merged) (hneg : row.spi < 0)
    (hne : (merged.filter fun r => decide (0 < r.spi)).filter
        (fun s => decide (s.category = row.category)) ≠ []) :
    ∃ donor rec,
      argmaxSPIlast ((merged.filter fun r => decide (0 < r.spi)).filter
          (fun s => decide (s.category = row.category))) = some donor ∧
      mkTransferRec (merged.filter fun r => decide (0 < r.spi)) row = some rec ∧
      rec ∈ recommend_transfers merged ∧
      rec.fromW = donor.wid ∧ rec.fromL = donor.location ∧
      donor ∈ (merged.filter fun r => decide (0 < r.spi)).filter
          (fun s => decide (s.category = row.category)) ∧
      (∀ x ∈ (merged.filter fun r => decide (0 < r.spi)).filter
          (fun s => decide (s.category = row.category)), x.spi ≤ donor.spi) ∧
      ∃ l1 l2,
        (merged.filter fun r => decide (0 < r.spi)).filter
            (fun s => decide (s.category = row.category)) = l1 ++ donor :: l2 ∧
        ∀ x ∈ l2, x.spi < donor.spi := by
  cases h : argmaxSPIlast ((merged.filter fun r => decide (0 < r.spi)).filter
      (fun s => decide (s.category = row.category))) with
  | none => exact absurd (argmaxSPIlast_eq_none.mp h) hne
  | some donor =>
    obtain ⟨hdmem, hdle, l1, l2, hsplit, hl2⟩ := argmaxSPIlast_spec h
    have hmk : mkTransferRec (merged.filter fun r => decide (0 < r.spi)) row =
        some { category := row.category, fromW := donor.wid,
               fromL := donor.location, toW := row.wid, toL := row.location,
               units := pyInt (min |row.spi| donor.spi),
               saving := pyRound2 (min |row.spi| donor.spi *
                 (donor.cost - row.cost)),
               donorSPI := pyRound2 donor.spi,
               receiverSPI := pyRound2 row.spi } := by
      simp only [mkTransferRec]
      rw [h]
    refine ⟨donor, _, rfl, hmk, ?_, rfl, rfl, hdmem, hdle, l1, l2, hsplit, hl2⟩
    simp only [recommend_transfers]
    exact List.mem_filterMap.mpr
      ⟨row, List.mem_filter.mpr ⟨hrow, decide_eq_true hneg⟩, hmk⟩

/-- Witness for `recommend_transfers_donor_choice` on `mergedC4`. -/
theorem recommend_transfers_donor_choice_witness :
    ∃ donor rec,
      argmaxSPIlast ((mergedC4.filter fun r => decide (0 < r.spi)).filter
          (fun s => decide (s.category =
            (⟨"R1", "Chennai", "E", 0, 0, 1, none, 0, -5⟩ : PRow).category))) =
        some donor ∧
      mkTransferRec (mergedC4.filter fun r => decide (0 < r.spi))
          ⟨"R1", "Chennai", "E", 0, 0, 1, none, 0, -5⟩ = some rec ∧
      rec ∈ recommend_transfers mergedC4 ∧
      rec.fromW = donor.wid ∧ rec.fromL = donor.location ∧
      donor ∈ (mergedC4.filter fun r => decide (0 < r.spi)).filter
          (fun s => decide (s.category =
            (⟨"R1", "Chennai", "E", 0, 0, 1, none, 0, -5⟩ : PRow).category)) ∧
      (∀ x ∈ (mergedC4.filter fun r => decide (0 < r.spi)).filter
          (fun s => decide (s.category =
            (⟨"R1", "Chennai", "E", 0, 0, 1, none, 0, -5⟩ : PRow).category)),
        x.spi ≤ donor.spi) ∧
      ∃ l1 l2,
        (mergedC4.filter fun r => decide (0 < r.spi)).filter
            (fun s => decide (s.category =
              (⟨"R1", "Chennai", "E", 0, 0, 1, none, 0, -5⟩ : PRow).category)) =
          l1 ++ donor :: l2 ∧
        ∀ x ∈ l2, x.spi < donor.spi :=
  recommend_transfers_donor_choice mergedC4
    ⟨"R1", "Chennai", "E", 0, 0, 1, none, 0, -5⟩
    (List.Mem.head _) (by decide) (by decide)

/-! ### C5: a donor is never decremented and can be over-committed -/

def mergedC5 : List PRow :=
  [⟨"R1", "Agra", "E", 0, 0, 5, none, 0, -10⟩,
   ⟨"R2", "Bhopal", "E", 0, 0, 5, none, 0, -10⟩,
   ⟨"D1", "Cochin", "E", 0, 0, 1, none, 0, 15⟩]

/-- C5: on `mergedC5` the single donor `D1` (surplus 15) is matched to both
shortage rows; the two emitted recommendations each transfer 10 units, so the
donor's `From_Warehouse` appears twice and the committed total 20 exceeds its
surplus 15 — the donor pool is not decremented between iterations. -/
theorem recommend_transfers_repeated_donor :
    (recommend_transfers mergedC5).map TransferRec.fromW = ["D1", "D1"] ∧
      (((recommend_transfers mergedC5).map TransferRec.units).sum : ℚ) = 20 ∧
      (mergedC5.filter (fun r => decide (0 < r.spi))).map PRow.spi = [15] ∧
      ¬((20 : ℚ) ≤ 15) := by
  refine ⟨?_, ?_, ?_, ?_⟩ <;> decide

/-! ### C6: metrics on empty and non-empty pressure tables -/

/-- C6: on the empty pressure table `calculate_metrics` fails with the
`ZeroDivisionError` raised while computing `shortage_percentage` (modelled as
`none`) instead of returning a zero or NaN metric; on every non-empty table it
returns `shortage_percentage = round(100 * shortages / total, 2)`. -/
theorem calculate_metrics_empty_and_shortage :
    calculate_metrics [] = none ∧
      ∀ merged : List PRow, merged ≠ [] →
        ∃ m, calculate_metrics merged = some m ∧
          m.shortage_percentage =
            pyRound2 (100 *
              ((merged.filter (fun r => decide (r.spi < 0))).length : ℚ) /
              (merged.length : ℚ)) := by
  constructor
  · rfl
  · intro merged hne
    have hlen : merged.length ≠ 0 := fun h => hne (List.length_eq_zero.mp h)
    have heq : ∃ m, calculate_metrics merged = some m := by
      simp only [calculate_metrics]
      rw [if_neg hlen]
      exact ⟨_, rfl⟩
    obtain ⟨m, hm⟩ := heq
    refine ⟨m, hm, ?_⟩
    simp only [calculate_metrics] at hm
    rw [if_neg hlen] at hm
    cases hm
    exact congrArg pyRound2 (by ring)

def merged6 : List PRow :=
  [⟨"W1", "Agra", "E", 0, 0, 1, none, 0, -3⟩,
   ⟨"W2", "Bhopal", "E", 0, 0, 1, none, 0, 2⟩,
   ⟨"W3", "Cochin", "F", 0, 0, 1, none, 0, 0⟩,
   ⟨"W4", "Delhi", "F", 0, 0, 1, none, 0, 5⟩]

/-- Witness for `calculate_metrics_empty_and_shortage` on a 4-row table with
one shortage row. -/
theorem calculate_metrics_empty_and_shortage_witness :
    ∃ m, calculate_metrics merged6 = some m ∧
      m.shortage_percentage =
        pyRound2 (100 *
          ((merged6.filter (fun r => decide (r.spi < 0))).length : ℚ) /
          (merged6.length : ℚ)) :=
  calculate_metrics_empty_and_shortage.2 merged6 (by decide)

/-! ### C7: the validator accumulates errors and never raises -/

theorem isEmpty_false_of_mem {a : String} {l : List String} (h : a ∈ l) :
    l.isEmpty = false := by
  cases l with
  | nil => cases h
  | cons b t => rfl

theorem mem_missingWarehouseMsgs {wh : RawTable}
    (hm : "Reorder_Level" ∉ wh.cols) :
    ("Missing warehouse columns: " ++
        pyStrList (requiredWarehouseCols.filter (fun c => decide (c ∉ wh.cols))))
      ∈ missingWarehouseMsgs wh := by
  have hmem : "Reorder_Level" ∈
      requiredWarehouseCols.filter (fun c => decide (c ∉ wh.cols)) :=
    List.mem_filter.mpr ⟨by decide, decide_eq_true hm⟩
  unfold missingWarehouseMsgs
  rw [if_neg (List.ne_nil_of_mem hmem)]
  exact List.mem_singleton_self _

theorem mem_negStockMsgs {wh : RawTable}
    (hc : "Current_Stock_Units" ∈ wh.cols)
    (hv : ∃ v ∈ wh.colVals "Current_Stock_Units", v < 0) :
    "Negative stock units found in warehouse data" ∈ negStockMsgs wh := by
  unfold negStockMsgs
  rw [if_pos ⟨hc, List.any_eq_true.mpr
    ⟨hv.choose, hv.choose_spec.1, decide_eq_true hv.choose_spec.2⟩⟩]
  exact List.mem_singleton_self _

theorem mem_negCostMsgs {wh : RawTable}
    (hc : "Storage_Cost_per_Unit" ∈ wh.cols)
    (hv : ∃ v ∈ wh.colVals "Storage_Cost_per_Unit", v < 0) :
    "Negative storage costs found in warehouse data" ∈ negCostMsgs wh := by
  unfold negCostMsgs
  rw [if_pos ⟨hc, List.any_eq_true.mpr
    ⟨hv.choose, hv.choose_spec.1, decide_eq_true hv.choose_spec.2⟩⟩]
  exact List.mem_singleton_self _

/-- C7: `validate_data` is total (never raises), returns `valid = true`
exactly when the accumulated error list is empty, and its checks fire
independently: a missing `Reorder_Level` contributes the missing-column
message naming that column (and forces `valid = false`), a negative
`Current_Stock_Units` value contributes the negative-stock message (and
forces `valid = false`), a negative `Storage_Cost_per_Unit` value contributes
the negative-cost message, and the messages co-occur when the conditions do. -/
theorem validate_data_spec (wh od : RawTable) :
    ((validate_data wh od).1 = true ↔ (validate_data wh od).2 = []) ∧
      ("Reorder_Level" ∉ wh.cols →
        ("Missing warehouse columns: " ++
            pyStrList (requiredWarehouseCols.filter
              (fun c => decide (c ∉ wh.cols)))) ∈ (validate_data wh od).2 ∧
          (validate_data wh od).1 = false) ∧
      (("Current_Stock_Units" ∈ wh.cols ∧
          ∃ v ∈ wh.colVals "Current_Stock_Units", v < 0) →
        "Negative stock units found in warehouse data" ∈
            (validate_data wh od).2 ∧
          (validate_data wh od).1 = false) ∧
      (("Storage_Cost_per_Unit" ∈ wh.cols ∧
          ∃ v ∈ wh.colVals "Storage_Cost_per_Unit", v < 0) →
        "Negative storage costs found in warehouse data" ∈
          (validate_data wh od).2) := by
  refine ⟨List.isEmpty_iff, ?_, ?_, ?_⟩
  · intro hm
    have h1 := mem_missingWarehouseMsgs hm
    have hmem : ("Missing warehouse columns: " ++
        pyStrList (requiredWarehouseCols.filter
          (fun c => decide (c ∉ wh.cols)))) ∈ (validate_data wh od).2 :=
      List.mem_append_left _ (List.mem_append_left _ (List.mem_append_left _ h1))
    exact ⟨hmem, isEmpty_false_of_mem hmem⟩
  · intro hm
    have h3 := mem_negStockMsgs hm.1 hm.2
    have hmem : "Negative stock units found in warehouse data" ∈
        (validate_data wh od).2 :=
      List.mem_append_left _ (List.mem_append_right _ h3)
    exact ⟨hmem, isEmpty_false_of_mem hmem⟩
  · intro hm
    exact List.mem_append_right _ (mem_negCostMsgs hm.1 hm.2)

def whC7 : RawTable :=
  { cols := ["Warehouse_ID", "Location", "Product_Category",
             "Current_Stock_Units", "Storage_Cost_per_Unit"],
    colVals := fun c => if c = "Current_Stock_Units" then [-5] else [] }

def odC7 : RawTable := { cols := requiredOrdersCols, colVals := fun _ => [] }

/-- Witness for `validate_data_spec`: a warehouse table missing
`Reorder_Level` and holding stock `-5` triggers both messages together with
`valid = false`. -/
theorem validate_data_spec_witness :
    (("Missing warehouse columns: " ++
        pyStrList (requiredWarehouseCols.filter
          (fun c => decide (c ∉ whC7.cols)))) ∈ (validate_data whC7 odC7).2 ∧
      (validate_data whC7 odC7).1 = false) ∧
    ("Negative stock units found in warehouse data" ∈
        (validate_data whC7 odC7).2 ∧
      (validate_data whC7 odC7).1 = false) :=
  ⟨(validate_data_spec whC7 odC7).2.1 (by decide),
   (validate_data_spec whC7 odC7).2.2.1 ⟨by decide, ⟨-5, by decide, by decide⟩⟩⟩

/-! ### C8: demand perturbation -/

theorem filterMap_length_all_some {α β : Type} {f : α → Option β} :
    ∀ l : List α, (∀ a ∈ l, (f a).isSome) → (l.filterMap f).length = l.length := by
  intro l
  induction l with
  | nil => intro _; rfl
  | cons a t ih =>
    intro h
    rw [List.filterMap_cons]
    cases hfa : f a with
    | none =>
      have := h a (List.mem_cons_self a t)
      rw [hfa] at this
      cases this
    | some b =>
      rw [List.length_cons, ih (fun x hx => h x (List.mem_cons_of_mem a hx))]
      rfl

theorem length_sampleWithReplacement (l : List ORow) (n : ℕ) (idx : ℕ → ℕ)
    (hn : n ≤ l.length) : (sampleWithReplacement l n idx).length = n := by
  unfold sampleWithReplacement
  have hall : ∀ i ∈ List.range n, (l.get? (idx i % l.length)).isSome := by
    intro i hi
    cases l with
    | nil =>
      have : n = 0 := Nat.le_zero.mp hn
      subst this
      cases hi
    | cons a t =>
      have hlt : idx i % (a :: t).length < (a :: t).length :=
        Nat.mod_lt _ (by simp)
      rw [List.get?_eq_get hlt]
      rfl
  rw [filterMap_length_all_some _ hall, List.length_range]

theorem sampleWithoutReplacement_some (l : List ORow) (k : ℕ) (perm : List ℕ)
    (hk : k ≤ l.length) (hp : perm.Perm (List.range l.length)) :
    ∃ kept, sampleWithoutReplacement l k perm = some kept ∧
      kept.length = k ∧ ∀ r ∈ kept, r ∈ l := by
  unfold sampleWithoutReplacement
  rw [if_pos hk]
  refine ⟨_, rfl, ?_, ?_⟩
  · have hlperm : perm.length = l.length :=
      hp.length_eq.trans (List.length_range _)
    have hall : ∀ i ∈ perm.take k, (l.get? i).isSome := by
      intro i hi
      have h1 : i ∈ perm := List.take_subset _ _ hi
      have h2 : i < l.length := List.mem_range.mp (hp.mem_iff.mp h1)
      rw [List.get?_eq_get h2]
      rfl
    rw [filterMap_length_all_some _ hall, List.length_take, hlperm]
    exact min_eq_left hk
  · intro r hr
    obtain ⟨i, _, hi⟩ := List.mem_filterMap.mp hr
    exact List.get?_mem hi

/-- C8 (amended): `simulate_demand_change` is the identity for `pct = 0`; for
`pct > 0` it appends `min(int(N * pct), N)` rows sampled with replacement
(`int` truncates — no rounding — and the sample size is capped at `N`); for
`pct < 0` on a non-empty table it keeps `max(N - int(N * |pct|), 1)` rows
sampled without replacement (so at least one row survives), while on an empty
table the negative branch raises (`sample` of 1 from 0 rows), modelled as
`none`. -/
theorem simulate_demand_change_spec (orders : List ORow) (pct : ℚ)
    (idx : ℕ → ℕ) (perm : List ℕ) :
    (pct = 0 → simulate_demand_change orders pct idx perm = some orders) ∧
      (0 < pct → ∃ extra,
        simulate_demand_change orders pct idx perm = some (orders ++ extra) ∧
          extra.length =
            min (pyInt ((orders.length : ℚ) * |pct|)).toNat orders.length) ∧
      (pct < 0 → orders ≠ [] → perm.Perm (List.range orders.length) →
        ∃ kept, simulate_demand_change orders pct idx perm = some kept ∧
          kept.length =
            max (orders.length - (pyInt ((orders.length : ℚ) * |pct|)).toNat) 1 ∧
          ∀ r ∈ kept, r ∈ orders) ∧
      (pct < 0 → orders = [] →
        simulate_demand_change orders pct idx perm = none) := by
  refine ⟨?_, ?_, ?_, ?_⟩
  · intro h0
    subst h0
    unfold simulate_demand_change
    rw [if_neg (not_not_intro rfl)]
  · intro hpos
    simp only [simulate_demand_change]
    rw [if_pos (ne_of_gt hpos), if_pos hpos]
    exact ⟨_, rfl,
      length_sampleWithReplacement _ _ _ (min_le_right _ _)⟩
  · intro hneg hne hp
    simp only [simulate_demand_change]
    rw [if_pos (ne_of_lt hneg), if_neg (not_lt.mpr (le_of_lt hneg))]
    have h1 : 1 ≤ orders.length := List.length_pos.mpr hne
    exact sampleWithoutReplacement_some _ _ _
      (max_le (Nat.sub_le _ _) h1) hp
  · intro hneg hnil
    subst hnil
    simp only [simulate_demand_change]
    rw [if_pos (ne_of_lt hneg), if_neg (not_lt.mpr (le_of_lt hneg))]
    unfold sampleWithoutReplacement
    rw [if_neg (by simp)]

def ordersC8 : List ORow :=
  [⟨"O1", .parsed "2024-01-01", "Mumbai", "E", 1⟩,
   ⟨"O2", .parsed "2024-01-02", "Mumbai", "E", 1⟩,
   ⟨"O3", .parsed "2024-01-03", "Delhi", "E", 1⟩]

/-- C8 counterexample: with 3 orders and `pct = 1/2` the code appends
`int(1.5) = 1` row (output size 4), while rounding as the claim states would
append `round(1.5) = 2` rows (output size 5). -/
theorem simulate_demand_change_counterexample :
    (simulate_demand_change ordersC8 (1/2) (fun _ => 0) []).map List.length =
      some 4 ∧
      pyRoundInt ((ordersC8.length : ℚ) * |(1/2 : ℚ)|) = 2 ∧
      (4 : ℕ) ≠ ordersC8.length + 2 := by
  have habs : ((ordersC8.length : ℚ) * |(1/2 : ℚ)|) = 3/2 := by
    rw [abs_of_pos (by norm_num : (0 : ℚ) < 1/2)]
    norm_num [ordersC8]
  have hc : (pyInt ((ordersC8.length : ℚ) * |(1/2 : ℚ)|)).toNat = 1 := by
    rw [habs]
    unfold pyInt
    rw [(by norm_num : ((3 : ℚ)/2).num = 3), (by norm_num : ((3 : ℚ)/2).den = 2)]
    decide
  refine ⟨?_, ?_, by decide⟩
  · simp only [simulate_demand_change]
    rw [if_pos (by norm_num : (1/2 : ℚ) ≠ 0), if_pos (by norm_num : (0 : ℚ) < 1/2)]
    rw [Option.map_some']
    rw [List.length_append,
      length_sampleWithReplacement _ _ _ (min_le_right _ _), hc]
    decide
  · rw [habs]
    have hf : ⌊(3/2 : ℚ)⌋ = 1 := by norm_num
    simp only [pyRoundInt, hf]
    norm_num

/-- Witness for `simulate_demand_change_spec`: the negative branch on a
3-row table with `pct = -1/2` keeps `max(3 - 1, 1) = 2` rows. -/
theorem simulate_demand_change_spec_witness :
    ∃ kept, simulate_demand_change ordersC8 (-(1/2)) (fun i => i) [2, 0, 1] =
        some kept ∧
      kept.length =
        max (ordersC8.length -
          (pyInt ((ordersC8.length : ℚ) * |(-(1/2) : ℚ)|)).toNat) 1 ∧
      ∀ r ∈ kept, r ∈ ordersC8 :=
  (simulate_demand_change_spec ordersC8 (-(1/2)) (fun i => i) [2, 0, 1]).2.2.1
    (by norm_num) (by decide) (by decide)

/-! ### C9: purity of the pipeline stages -/

/-- C9 counterexample: `calculate_demand` mutates its argument — after the
call, the single order's `Order_Date` cell has been overwritten with the
parsed value, so the argument's post-state differs from the input. -/
theorem calculate_demand_mutation_counterexample :
    (calculate_demand [⟨"O1", .raw "2024-01-01", "Mumbai", "E", 1⟩]).1 ≠
      [⟨"O1", .raw "2024-01-01", "Mumbai", "E", 1⟩] := by
  decide

theorem map_todate_eq_self :
    ∀ orders : List ORow,
      orders.map (fun r => { r with odate := to_datetime r.odate }) = orders ↔
        ∀ r ∈ orders, ∃ s, r.odate = DateVal.parsed s := by
  intro orders
  induction orders with
  | nil => simp
  | cons a t ih =>
    rw [List.map_cons]
    constructor
    · intro h
      injection h with h1 h2
      intro r hr
      rcases List.mem_cons.mp hr with rfl | hr
      · have hod : to_datetime r.odate = r.odate := congrArg ORow.odate h1
        cases hd : r.odate with
        | raw s =>
          rw [hd] at hod
          cases hod
        | parsed s => exact ⟨s, rfl⟩
      · exact ih.mp h2 r hr
    · intro h
      have ha : to_datetime a.odate = a.odate := by
        obtain ⟨s, hs⟩ := h a (List.mem_cons_self a t)
        rw [hs]
        rfl
      rw [ih.mpr (fun r hr => h r (List.mem_cons_of_mem a hr))]
      have hrec : ({ a with odate := to_datetime a.odate } : ORow) = a := by
        cases a
        simpa using ha
      rw [hrec]

/-- C9 (amended): the pipeline stages and perturbations are pure except
`calculate_demand`, which overwrites its argument's `Order_Date` column with
parsed dates: its argument is left unchanged precisely when every
`Order_Date` was already a parsed timestamp. -/
theorem calculate_demand_mutation (orders : List ORow) :
    (calculate_demand orders).1 = orders ↔
      ∀ r ∈ orders, ∃ s, r.odate = DateVal.parsed s :=
  map_todate_eq_self orders

/-! ### C10: zero-percent perturbation is a pipeline no-op -/

/-- C10: perturbing demand and cost by `pct = 0` and running the full
pipeline produces exactly the metrics and recommendation sequence of the
unperturbed pipeline. -/
theorem pipeline_noop_perturbation (wh : List WRow) (orders : List ORow)
    (idx : ℕ → ℕ) (perm : List ℕ) :
    (simulate_demand_change orders 0 idx perm).map
        (fullPipeline (simulate_cost_change wh 0)) =
      some (fullPipeline wh orders) := by
  have h1 : simulate_demand_change orders 0 idx perm = some orders := by
    unfold simulate_demand_change
    rw [if_neg (not_not_intro rfl)]
  have h2 : simulate_cost_change wh 0 = wh := by
    unfold simulate_cost_change
    rw [if_neg (not_not_intro rfl)]
  rw [h1, h2, Option.map_some']

/-- Witness for `calculate_demand_mutation` at a concrete already-parsed
table: the argument is returned unchanged. -/
theorem calculate_demand_mutation_witness :
    (calculate_demand [⟨"O1", .parsed "2024-01-01", "Mumbai", "E", 1⟩]).1 =
      [⟨"O1", .parsed "2024-01-01", "Mumbai", "E", 1⟩] :=
  (calculate_demand_mutation
      [⟨"O1", .parsed "2024-01-01", "Mumbai", "E", 1⟩]).mpr
    (fun r hr => by
      rcases List.mem_singleton.mp hr with rfl
      exact ⟨"2024-01-01", rfl⟩)

/-- Witness for `pipeline_noop_perturbation` on concrete tables. -/
theorem pipeline_noop_perturbation_witness :
    (simulate_demand_change odW 0 (fun i => i) []).map
        (fullPipeline (simulate_cost_change whW 0)) =
      some (fullPipeline whW odW) :=
  pipeline_noop_perturbation whW odW (fun i => i) []
